import Mathlib

/-!
Verification of the cowhepaco package comparison tool.

The Python sources (`cowhepaco/__main__.py`, `cowhepaco/conda.py`,
`cowhepaco/package_index.py`) are shallowly embedded below: byte strings and
text are lists of characters, archives are lists of entries, the module-level
memoization cache and the sqlite store are threaded explicitly, network calls
are oracles passed as functions, and Python exceptions are `Except` errors.
-/

namespace Cowhepaco

/-- Byte strings and text are both modelled as lists of characters. -/
abbrev Str : Type := List Char

/-- Python `s.split(sep)` for a one-character separator:
n separators give n+1 parts, empty parts included. -/
def splitOnCh (sep : Char) : Str → List Str
  | [] => [[]]
  | c :: cs =>
    let r := splitOnCh sep cs
    if c = sep then [] :: r
    else (c :: r.headD []) :: r.tail

/-- Python `s.startswith(p)`. -/
def startsWithS : Str → Str → Bool
  | [], _ => true
  | _ :: _, [] => false
  | c :: p, d :: s => c == d && startsWithS p s

/-- Python `s.endswith(p)`. -/
def endsWithS (p s : Str) : Bool := p.isSuffixOf s

/-- First occurrence of `sub` in `s`: `some (before, after)` with `sub` removed,
`none` when `sub` does not occur. -/
def findSub (sub : Str) : Str → Option (Str × Str)
  | [] => if sub.isEmpty then some ([], []) else none
  | c :: cs =>
    if sub.isPrefixOf (c :: cs) then some ([], (c :: cs).drop sub.length)
    else
      match findSub sub cs with
      | some (b, a) => some (c :: b, a)
      | none => none

/-- Python `s.partition(sep)[-1]`: the part after the first occurrence of
`sep`, or the empty string when `sep` does not occur. -/
def pyPartitionAfter (sep s : Str) : Str :=
  match findSub sep s with
  | some r => r.2
  | none => []

/-- Python `s.partition(sep)[0]`: the part before the first occurrence of
`sep`, or all of `s` when `sep` does not occur. -/
def pyPartitionBefore (sep s : Str) : Str :=
  match findSub sep s with
  | some r => r.1
  | none => s

/-- Python `sub in s` for strings (substring containment). -/
def containsSub (sub s : Str) : Bool := (findSub sub s).isSome

/-- Python whitespace recognised by `str.strip()`. -/
def isPySpace (c : Char) : Bool :=
  c = ' ' || c = '\t' || c = '\n' || c = '\r' || c = '\x0b' || c = '\x0c'

/-- Python `s.strip()`. -/
def pyStrip (s : Str) : Str :=
  ((s.dropWhile isPySpace).reverse.dropWhile isPySpace).reverse

/-- Python `s.lower()` (ASCII is all that occurs here). -/
def toLowerS (s : Str) : Str := s.map Char.toLower

/-- Characters matched by the character class `[-._]` (equally `[-_.]`)
used by both normalization regexes. -/
def isSepCh (c : Char) : Bool := c = '-' || c = '.' || c = '_'

/-- Python `re.sub("[-._]+", repl, s)` for a one-character replacement:
collapse every maximal run of separator characters into a single `repl`. -/
def collapseSeps (repl : Char) (l : Str) : Str :=
  (l.foldl
    (fun (st : Bool × Str) c =>
      if isSepCh c then (true, if st.1 then st.2 else st.2 ++ [repl])
      else (false, st.2 ++ [c]))
    (false, [])).2

/-- Deduplication keeping first occurrences; models building a Python
`set`/`dict` from a sequence (key order is first-insertion order). -/
def dedupFirst (l : List Str) : List Str :=
  l.foldl (fun acc x => if acc.any (fun y => y == x) then acc else acc ++ [x]) []

/-- Python `d[k] = v` on a dict modelled as an association list: an existing
key keeps its position and gets the new value, a new key is appended. -/
def assocUpdate {α : Type} (d : List (Str × α)) (k : Str) (v : α) : List (Str × α) :=
  if d.any (fun p => p.1 == k) then d.map (fun p => if p.1 == k then (p.1, v) else p)
  else d ++ [(k, v)]

/-- Python `s.split("/")[0]`: the prefix before the first slash. -/
def firstSeg (s : Str) : Str := (splitOnCh '/' s).headD []

/-- Python `Path(p).name`: the last `/`-separated component. -/
def pathName (p : Str) : Str := (splitOnCh '/' p).getLastD []

/-! ## conda.py: archive reading -/

/-- One entry of a (possibly nested) tar archive. -/
structure TarEntry where
  name : Str
  isfile : Bool
  content : Str
deriving DecidableEq

/-- One member of the outer `.conda` zip container; its payload is the decoded
inner tar archive (zstd decompression is transparent in this model). -/
structure CondaMember where
  filename : Str
  entries : List TarEntry
deriving DecidableEq

/-- The on-disk container behind a package path: either a `.conda` zip-like
container or a plain (possibly gzipped) tarball. -/
inductive PackageContainer where
  | condaZip (members : List CondaMember)
  | tarArchive (entries : List TarEntry)
deriving DecidableEq

/-- A conda package as handed to `iter_files`: its path string plus the
container contents behind that path. -/
structure CondaPackage where
  filename : Str
  container : PackageContainer
deriving DecidableEq

/-- A file record yielded by archive traversal (`file.raw.name` plus the bytes
`file.read()` would produce). -/
structure FileEntry where
  name : Str
  content : Str
deriving DecidableEq

/-- The tar traversal at the end of `iter_files`: entries under `info/` are
skipped, only regular files are yielded. -/
def tarFiles (entries : List TarEntry) : List FileEntry :=
  (entries.filter (fun e => !startsWithS "info/".data e.name && e.isfile)).map
    (fun e => { name := e.name, content := e.content })

/-- `conda.iter_files`: a `.conda` path is opened as a zip whose first member
prefixed `pkg-` holds the inner tar; otherwise the path is opened directly as
a tar. `ValueError("pkg not found")` is raised when no member has the prefix.
A container that does not parse in the expected format raises from `zipfile`
or `tarfile`; both are modelled as `Except.error`. -/
def iterFiles (pkg : CondaPackage) : Except String (List FileEntry) :=
  if endsWithS ".conda".data pkg.filename then
    match pkg.container with
    | .condaZip members =>
      match members.find? (fun m => startsWithS "pkg-".data m.filename) with
      | none => .error "pkg not found"
      | some m => .ok (tarFiles m.entries)
    | .tarArchive _ => .error "BadZipFile"
  else
    match pkg.container with
    | .tarArchive entries => .ok (tarFiles entries)
    | .condaZip _ => .error "ReadError"

/-! ## `__main__.py`: wheel reading and comparison -/

/-- One entry of the wheel zip's `filelist`. -/
structure ZipEntry where
  filename : Str
  isdir : Bool
  content : Str
deriving DecidableEq

/-- A wheel archive is its `filelist`. -/
abbrev Wheel := List ZipEntry

/-- `zipfile.ZipFile.open(name)` by name: `NameToInfo` keeps the last entry
with a given name; a missing name raises `KeyError`, modelled as `none`. -/
def wheelOpen (wheel : Wheel) (name : Str) : Option Str :=
  (wheel.reverse.find? (fun e => e.filename == name)).map ZipEntry.content

/-- One line of the `entry_points.txt` parse loop in `read_entry_points`:
section headers toggle `in_scripts`, and inside `[console_scripts]` each line
is split on the first `=` and its left side recorded as a key. -/
def parseEntryPointsLine (st : Bool × List Str) (line : Str) : Bool × List Str :=
  let line := pyStrip line
  if startsWithS "[".data line then (line = "[console_scripts]".data, st.2)
  else if st.1 then (st.1, st.2 ++ [pyStrip (pyPartitionBefore "=".data line)])
  else st

/-- `read_entry_points`: locate the first `*.dist-info/entry_points.txt`
member (empty mapping when absent) and collect the console-script names.
Only the keys are retained; `compare` uses nothing else of the mapping. -/
def readEntryPoints (wheel : Wheel) : List Str :=
  match wheel.find? (fun e => endsWithS ".dist-info/entry_points.txt".data e.filename) with
  | none => []
  | some e => ((splitOnCh '\n' e.content).foldl parseEntryPointsLine (false, [])).2

/-- `get_data_directory`: the first top-level segment ending in `.data`
among the wheel's member names, when any. -/
def getDataDirectory (wheel : Wheel) : Option Str :=
  (wheel.find? (fun e => endsWithS ".data".data (firstSeg e.filename))).map
    (fun e => firstSeg e.filename)

/-- `re.sub(rb"^#!.*/", b"#!", data)`: when the bytes start with `#!` and the
first line contains a `/`, everything from after `#!` up to and including the
last `/` of the first line is removed (`.` does not match a newline and `.*`
is greedy); otherwise the bytes are unchanged. -/
def stripShebangL (s : Str) : Str :=
  if startsWithS ['#', '!'] s then
    let rest := s.drop 2
    let firstLine := rest.takeWhile (fun c => c != '\n')
    if firstLine.contains '/' then
      ['#', '!'] ++ (firstLine.reverse.takeWhile (fun c => c != '/')).reverse
        ++ rest.drop firstLine.length
    else s
  else s

/-- The body of `compare`'s `for file in files` loop, threading the
`names_seen` set and the `errors` list: the set additions are unconditional
within their placement branch, the error appends conditional on the
comparison outcome there. -/
def compareStep (wheel : Wheel) (entryPoints : List Str) (dataDirectory : Option Str)
    (st : List Str × List (Str × Str)) (file : FileEntry) : List Str × List (Str × Str) :=
  let namesSeen := st.1
  let errors := st.2
  if (splitOnCh '/' file.name).contains "site-packages".data then
    let name := pyPartitionAfter "site-packages/".data file.name
    let namesSeen := name :: namesSeen
    match wheelOpen wheel name with
    | none =>
      (namesSeen,
        if endsWithS ".pyc".data file.name then errors
        else errors ++ [("not found".data, name)])
    | some data =>
      (namesSeen,
        if file.content = data then errors
        else errors ++ [("differ".data, name)])
  else if (splitOnCh '/' file.name).contains "bin".data && !entryPoints.isEmpty then
    let name := pyPartitionAfter "bin/".data file.name
    (namesSeen,
      if entryPoints.any (fun k => k == name) then errors
      else errors ++ [("outside".data, file.name)])
  else if (splitOnCh '/' file.name).contains "python-scripts".data && !entryPoints.isEmpty then
    let name := pyPartitionAfter "python-scripts/".data file.name
    (namesSeen,
      if entryPoints.any (fun k => k == name) then errors
      else errors ++ [("outside".data, file.name)])
  else
    match dataDirectory with
    | some dd =>
      let name :=
        if startsWithS "bin/".data file.name || startsWithS "python-scripts/".data file.name then
          dd ++ "/scripts/".data ++ pyPartitionAfter "/".data file.name
        else dd ++ "/data/".data ++ file.name
      match wheelOpen wheel name with
      | none => (namesSeen, errors ++ [("outside".data, file.name)])
      | some data =>
        (name :: namesSeen,
          if stripShebangL file.content = stripShebangL data then errors
          else errors ++ [("differ".data, name)])
    | none => (namesSeen, errors ++ [("outside".data, file.name)])

/-- The contents of the Python set
`set(info.filename for info in wheel.filelist if not info.is_dir()) - names_seen`,
as a list (iteration order of the set is supplied separately, see `compare`). -/
def notFoundList (files : List FileEntry) (wheel : Wheel) : List Str :=
  let namesSeen :=
    (files.foldl (compareStep wheel (readEntryPoints wheel) (getDataDirectory wheel))
      ([], [])).1
  (dedupFirst ((wheel.filter (fun e => !e.isdir)).map ZipEntry.filename)).filter
    (fun n => !namesSeen.any (fun m => m == n))

/-- The `errors` list of `compare` just before the final metadata filter.
`ord` models CPython's set iteration order over the leftover-file set: within
one process it is a fixed function of the set, passed in here explicitly. -/
def compareErrors (files : List FileEntry) (wheel : Wheel)
    (ord : List Str → List Str) : List (Str × Str) :=
  let folded :=
    files.foldl (compareStep wheel (readEntryPoints wheel) (getDataDirectory wheel)) ([], [])
  folded.2 ++
    ((ord (notFoundList files wheel)).filter (fun f => !endsWithS "/.git".data f)).map
      (fun f => ("additional".data, f))

/-- `compare(files, wheel)`: the discrepancy list, with every entry whose
path's first segment ends in `.dist-info` dropped at the end. -/
def compare (files : List FileEntry) (wheel : Wheel)
    (ord : List Str → List Str) : List (Str × Str) :=
  (compareErrors files wheel ord).filter
    (fun pr => !endsWithS ".dist-info".data (firstSeg pr.2))

/-! ## `__main__.py`: PyPI catalog resolution -/

/-- One element of the simple-API JSON `files` listing. -/
structure PFile where
  filename : Str
  url : Str
deriving DecidableEq

/-- Outcome of `urllib.request.urlopen` on the simple-API request:
a parsed `files` listing, an `HTTPError` (the only exception the code
catches), or any other network failure (`URLError` etc.), which the code
does not catch. -/
inductive FetchResult where
  | ok (files : List PFile)
  | httpError
  | netError
deriving DecidableEq

/-- The module-level `__cache` of `get_pypi_wheel_url`: normalized name to
either `None` (negative result after an `HTTPError`) or the files listing. -/
abbrev Cache := List (Str × Option (List PFile))

/-- Python `__cache.get(k)` distinguishing a missing key from a stored `None`. -/
def cacheLookup (c : Cache) (k : Str) : Option (Option (List PFile)) :=
  (c.find? (fun p => p.1 == k)).map Prod.snd

/-- `re.sub("[-._]+", "_", package_name).lower()` — the name normalization
`get_pypi_wheel_url` performs (note the underscore replacement). -/
def pypiNormalize (name : Str) : Str := toLowerS (collapseSeps '_' name)

/-- `re.sub(r"[-_.]+", "-", name).lower()` — `package_index.normalize`. -/
def normalize (name : Str) : Str := toLowerS (collapseSeps '-' name)

/-- Python `s.rsplit(".", 1)[0]`: everything before the last dot, or all of
`s` when it has no dot. -/
def pyRsplitStem (s : Str) : Str :=
  let parts := splitOnCh '.' s
  if parts.length ≤ 1 then s else List.intercalate ['.'] parts.dropLast

/-- The `found` dict of `get_pypi_wheel_url`: for each listed file whose name
starts with `{normalized}-{version}-`, map the tag (stem after that prefix,
extension removed) to the file; later duplicates overwrite in place. -/
def buildFound (files : List PFile) (pfx : Str) : List (Str × PFile) :=
  files.foldl
    (fun found file =>
      if startsWithS pfx file.filename then
        assocUpdate found ((pyRsplitStem file.filename).drop pfx.length) file
      else found)
    []

/-- Python `found.get(k)` (keys are in first-insertion order, values current). -/
def lookupFound (found : List (Str × PFile)) (k : Str) : Option PFile :=
  (found.find? (fun p => p.1 == k)).map Prod.snd

/-- The selection block of `get_pypi_wheel_url` from `if tag in found:` on:
exact match; else split the tag on the first two dashes (`ValueError` or
`AttributeError` returns `None`); else the first candidate sharing the
two-segment prefix and containing `manylinux` and `x86_64`; else
`py3-none-any`; else `py2.py3-none-any`; else `None`. -/
def selectFrom (found : List (Str × PFile)) (tag : Option Str) : Option PFile :=
  match tag with
  | none => none
  | some t =>
    match lookupFound found t with
    | some f => some f
    | none =>
      let parts := splitOnCh '-' t
      if parts.length < 3 then none
      else
        let pythonTag := parts.headD []
        let abiTag := (parts.drop 1).headD []
        match found.find? (fun p =>
            startsWithS (pythonTag ++ ['-'] ++ abiTag ++ ['-']) p.1
              && containsSub "manylinux".data p.1 && containsSub "x86_64".data p.1) with
        | some p => some p.2
        | none =>
          match lookupFound found "py3-none-any".data with
          | some f => some f
          | none => lookupFound found "py2.py3-none-any".data

/-- The simple-API URL queried for a normalized name. -/
def simpleUrl (key : Str) : Str := "https://pypi.org/simple/".data ++ key

/-- `get_pypi_wheel_url(package_name, package_version, tag)`, with the
module-level cache threaded explicitly and the network call an oracle.
An `HTTPError` is caught and cached as a negative result; any other
network failure propagates as an exception (`Except.error`). -/
def getPypiWheelUrl (cache : Cache) (fetch : Str → FetchResult)
    (packageName packageVersion : Str) (tag : Option Str) :
    Except String (Option PFile × Cache) :=
  let key := pypiNormalize packageName
  let pfx := key ++ ['-'] ++ packageVersion ++ ['-']
  match cacheLookup cache key with
  | some none => .ok (none, cache)
  | some (some files) =>
    if files.isEmpty then .ok (none, cache)
    else .ok (selectFrom (buildFound files pfx) tag, cache)
  | none =>
    match fetch (simpleUrl key) with
    | .httpError => .ok (none, assocUpdate cache key none)
    | .netError => .error "URLError"
    | .ok files => .ok (selectFrom (buildFound files pfx) tag, assocUpdate cache key (some files))

/-! ## `package_index.py`: the mirror index -/

/-- One row of the sqlite `packages` table (the surrogate id is the list
position; rows are listed in insertion order, which is how an un-ordered
`SELECT` scans this table). -/
structure DbRecord where
  name : Str
  version : Str
  path : Str
  sha256 : Str
deriving DecidableEq

/-- `HTML_ITEM.format(href=..., name=...)`. -/
def htmlItem (href nm : Str) : Str :=
  "    <a href=\"".data ++ href ++ "\">".data ++ nm ++ "</a><br>".data

/-- The `packages = defaultdict(list)` grouping of `update_index`: keys in
first-occurrence order of the raw `name` column, `(path, sha256)` pairs
appended in row order. -/
def groupByName (rows : List (Str × Str × Str)) : List (Str × List (Str × Str)) :=
  rows.foldl
    (fun acc row =>
      if acc.any (fun p => p.1 == row.1) then
        acc.map (fun p => if p.1 == row.1 then (p.1, p.2 ++ [row.2]) else p)
      else acc ++ [(row.1, [row.2])])
    []

/-- The listing `update_index` renders: the main `simple/index.html` items and
the per-project pages in the order they are written (a later page to the same
normalized directory overwrites an earlier one on disk). -/
structure SimpleIndex where
  mainItems : List Str
  projectPages : List (Str × List Str)
deriving DecidableEq

/-- `update_index`: group the selected rows by raw name, render one main-index
item per raw name (href and text both use `normalize`), and one project page
per raw name under `simple/{normalize(name)}/` whose items link
`../../{path}#sha265={sha256}` titled `Path(path).name`. -/
def updateIndex (db : List DbRecord) : SimpleIndex :=
  let rows := db.map (fun r => (r.name, r.path, r.sha256))
  let packages := groupByName rows
  { mainItems := packages.map
      (fun p => htmlItem (normalize p.1 ++ "/index.html".data) (normalize p.1))
    projectPages := packages.map
      (fun p =>
        (normalize p.1,
          p.2.map (fun pr =>
            htmlItem ("../../".data ++ pr.1 ++ "#sha265=".data ++ pr.2) (pathName pr.1)))) }

/-- The persistent state touched by `add_wheel`: the copied wheel files under
`files/`, the sqlite database (absent until first created), and the listing
`update_index` last wrote. -/
structure IndexState where
  files : List (Str × Str)
  db : Option (List DbRecord)
  listing : SimpleIndex
deriving DecidableEq

/-- How an `add_wheel` call that returns normally reports the insert. -/
inductive AddOutcome where
  | added
  | duplicateKey
deriving DecidableEq

/-- `add_wheel(wheel_path, index_dir)`: a missing source file raises
`FileNotFoundError` (`Except.error`); otherwise the filename is split at its
first `-` into `(name, version)`, the file is copied (overwriting) into
`files/`, its digest computed, and the row inserted unless `(name, version)`
exists, in which case `sqlite3.IntegrityError` is caught and reported as a
message (`duplicateKey`), leaving the table unchanged. `update_index` runs at
the end either way. The digest is an oracle standing in for `hashlib.sha256`. -/
def addWheel (sha : Str → Str) (st : IndexState) (fname : Str) (src : Option Str) :
    Except String (IndexState × AddOutcome) :=
  match src with
  | none => .error "FileNotFoundError"
  | some content =>
    let nm := pyPartitionBefore "-".data fname
    let ver := pyPartitionAfter "-".data fname
    let dest := "files/".data ++ fname
    let files := assocUpdate st.files dest content
    let digest := sha content
    let db := st.db.getD []
    if db.any (fun r => r.name == nm && r.version == ver) then
      .ok ({ files := files, db := some db, listing := updateIndex db }, .duplicateKey)
    else
      let db := db ++ [{ name := nm, version := ver, path := dest, sha256 := digest }]
      .ok ({ files := files, db := some db, listing := updateIndex db }, .added)

/-! ## `__main__.py`: `get_wheel_filename`, `download_and_compare`, `main` -/

/-- The `for line in lines` loop over a METADATA file: `Name:` lines update
the name and scanning continues; the first `Version:` line sets the version
and breaks. -/
def parseMetadataLines (nv : Option Str × Option Str) :
    List Str → Option Str × Option Str
  | [] => nv
  | l :: rest =>
    if startsWithS "Name:".data l then
      parseMetadataLines (some (pyStrip (pyPartitionAfter ":".data l)), nv.2) rest
    else if startsWithS "Version:".data l then
      (nv.1, some (pyStrip (pyPartitionAfter ":".data l)))
    else parseMetadataLines nv rest

/-- `get_wheel_filename`: walk the conda package's files; each `*/METADATA`
file re-parses name/version, each `*/WHEEL` file updates the tag from its
`Tag:` lines (last one wins). Archive errors from `iter_files` propagate. -/
def getWheelFilename (pkg : CondaPackage) :
    Except String (Option Str × Option Str × Option Str) :=
  (iterFiles pkg).map (fun files =>
    files.foldl
      (fun (st : Option Str × Option Str × Option Str) f =>
        let nv :=
          if endsWithS "/METADATA".data f.name then
            parseMetadataLines (st.1, st.2.1) (splitOnCh '\n' f.content)
          else (st.1, st.2.1)
        let tg :=
          if endsWithS "/WHEEL".data f.name then
            (splitOnCh '\n' f.content).foldl
              (fun tg l =>
                if startsWithS "Tag:".data l then some (pyStrip (pyPartitionAfter ":".data l))
                else tg)
              st.2.2
          else st.2.2
        (nv.1, nv.2, tg))
      (none, none, none))

/-- Outcome of `urllib.request.urlopen` on a wheel download URL; the body is
modelled as the wheel archive the bytes decode to. -/
inductive DownloadResult where
  | ok (wheel : Wheel)
  | httpError
  | netError

/-- The ambient state `download_and_compare` reads and writes: the resolver
cache, console output, the wheel names present under `packages/files/`, and
the staging wheels under `packages/broken/`. -/
structure WorldState where
  cache : Cache
  log : List Str
  finalFiles : List Str
  brokenFiles : List (Str × Wheel)

/-- `download_and_compare(package_path, conda_package_name)`: resolve the
wheel name from the conda package's metadata, query PyPI, download into the
staging directory, compare, and publish to `files/` only on a clean
comparison. `HTTPError`s are caught and logged; any other exception
(including the `ValueError` from `iter_files`) propagates to the caller. -/
def downloadAndCompare (fetchSimple : Str → FetchResult) (fetchUrl : Str → DownloadResult)
    (ord : List Str → List Str) (st : WorldState) (pkg : CondaPackage) :
    Except String (WorldState × Option Str) := do
  let info ← getWheelFilename pkg
  match info.1 with
  | none => pure ({ st with log := st.log ++ [pkg.filename ++ ": wheel name not found".data] }, none)
  | some pname => do
    let res ← getPypiWheelUrl st.cache fetchSimple pname (info.2.1.getD "None".data) info.2.2
    let st := { st with cache := res.2 }
    match res.1 with
    | none =>
      pure ({ st with log := st.log ++ [pkg.filename ++ ": wheel package not found".data] }, none)
    | some wheelInfo =>
      let wheelName := pathName wheelInfo.filename
      if st.finalFiles.any (fun f => f == wheelName) then
        pure ({ st with log := st.log ++ [pkg.filename ++ ": found".data] }, none)
      else
        match fetchUrl wheelInfo.url with
        | .httpError =>
          pure ({ st with log := st.log ++ [pkg.filename ++ ": wheel package not found".data] },
            none)
        | .netError => throw "URLError"
        | .ok wheelArchive => do
          let st := { st with brokenFiles := assocUpdate st.brokenFiles wheelName wheelArchive }
          let files ← iterFiles pkg
          let errs := compare files wheelArchive ord
          if errs.isEmpty then
            pure ({ st with
                finalFiles := st.finalFiles ++ [wheelName],
                brokenFiles := st.brokenFiles.filter (fun p => !(p.1 == wheelName)),
                log := st.log ++ [pkg.filename ++ ": ok".data] }, some wheelName)
          else
            pure ({ st with log := st.log ++ [pkg.filename ++ ": errors".data] }, none)

/-- The `for conda_package_name in args.conda_package_name` loop of `main`:
each package is processed in turn and successful wheels collected. There is
no exception handler around the loop body, so an exception from any single
package aborts the remaining batch. -/
def mainLoop (fetchSimple : Str → FetchResult) (fetchUrl : Str → DownloadResult)
    (ord : List Str → List Str) :
    WorldState → List CondaPackage → Except String (WorldState × List Str)
  | st, [] => pure (st, [])
  | st, p :: rest => do
    let r ← downloadAndCompare fetchSimple fetchUrl ord st p
    let r2 ← mainLoop fetchSimple fetchUrl ord r.1 rest
    pure (r2.1, (match r.2 with | some w => [w] | none => []) ++ r2.2)

/-! ## Spec-side definitions used for refinement comparisons -/

/-- Written from the amended resolver claim, for comparison with the code's
selection: rules tried first-match-wins — (1) exact tag; then, only when a
tag was requested and it splits into at least three dash-separated segments,
(2) the first candidate sharing the tag's two leading segments and containing
both a `manylinux` and an `x86_64` marker, (3) `py3-none-any`,
(4) `py2.py3-none-any`; otherwise NotFound. -/
def amendedSelect (found : List (Str × PFile)) (tag : Option Str) : Option PFile :=
  match tag with
  | none => none
  | some t =>
    let segs := splitOnCh '-' t
    let rules : List (Option PFile) :=
      if segs.length < 3 then [lookupFound found t]
      else
        [lookupFound found t,
         (found.find? (fun p =>
             startsWithS (segs.headD [] ++ ['-'] ++ (segs.drop 1).headD [] ++ ['-']) p.1
               && containsSub "manylinux".data p.1 && containsSub "x86_64".data p.1)).map
           Prod.snd,
         lookupFound found "py3-none-any".data,
         lookupFound found "py2.py3-none-any".data]
    rules.findSome? id

/-! ## Theorems -/

/-- C1 (counterexample): the claim says `get_pypi_wheel_url` queries with the
dash-collapsing, lower-casing rule of `package_index.normalize`. Running the
resolver on `Foo.Bar` populates the cache under the key `foo_bar`, while
`normalize` yields `foo-bar`: the two rules disagree on this input. -/
theorem c1_counterexample :
    getPypiWheelUrl [] (fun _ => FetchResult.httpError) "Foo.Bar".data "1.0".data none
      = .ok (none, [("foo_bar".data, none)])
    ∧ normalize "Foo.Bar".data = "foo-bar".data
    ∧ pypiNormalize "Foo.Bar".data ≠ normalize "Foo.Bar".data :=
  ⟨rfl, rfl, by decide⟩

/-- C1 (amended): `get_pypi_wheel_url` normalizes the package name by
collapsing runs of `-`, `_`, `.` into a single underscore and lower-casing
(`pypiNormalize`), and applies that rule before any catalog query or filename
construction: its result depends on the raw name only through the normalized
form. This differs from `MirrorIndex.normalize`, which collapses to `-`. -/
theorem c1_normalization :
    (∀ (cache : Cache) (fetch : Str → FetchResult) (n₁ n₂ v : Str) (t : Option Str),
      pypiNormalize n₁ = pypiNormalize n₂ →
      getPypiWheelUrl cache fetch n₁ v t = getPypiWheelUrl cache fetch n₂ v t)
    ∧ pypiNormalize "Foo.Bar".data = "foo_bar".data
    ∧ normalize "Foo.Bar".data = "foo-bar".data := by
  refine ⟨?_, rfl, rfl⟩
  intro cache fetch n₁ n₂ v t h
  simp only [getPypiWheelUrl, h]

/-- C1 (witness): the dependence-through-normalization part of
`c1_normalization` applied at `Foo.Bar` versus `foo_bar`. -/
theorem c1_witness :
    getPypiWheelUrl [] (fun _ => FetchResult.httpError) "Foo.Bar".data "1.0".data none
      = getPypiWheelUrl [] (fun _ => FetchResult.httpError) "foo_bar".data "1.0".data none :=
  c1_normalization.1 [] (fun _ => FetchResult.httpError) "Foo.Bar".data "foo_bar".data
    "1.0".data none rfl

/-- C2 (counterexample): with a catalog offering only `py3-none-any` and a
requested tag `cp311` that does not split into three dash-separated segments,
the code returns NotFound even though rule 3 of the claimed order would
select the `py3-none-any` candidate (which is present in `found`). -/
theorem c2_counterexample :
    getPypiWheelUrl [("pkg".data, some [⟨"pkg-1.0-py3-none-any.whl".data, "uB".data⟩])]
        (fun _ => FetchResult.httpError) "pkg".data "1.0".data (some "cp311".data)
      = .ok (none, [("pkg".data, some [⟨"pkg-1.0-py3-none-any.whl".data, "uB".data⟩])])
    ∧ lookupFound
        (buildFound [⟨"pkg-1.0-py3-none-any.whl".data, "uB".data⟩] "pkg-1.0-".data)
        "py3-none-any".data
      = some ⟨"pkg-1.0-py3-none-any.whl".data, "uB".data⟩ :=
  ⟨rfl, rfl⟩

/-- C2 (amended): the selection order is — (1) exact tag match; then, only
when the requested tag is present and has at least two dashes, (2) the first
candidate sharing its two leading dash-separated segments and containing both
`manylinux` and `x86_64`, (3) `py3-none-any`, (4) `py2.py3-none-any`; a tag
that fails to split (or an absent tag) yields NotFound without trying the
universal fallbacks. The code's selection equals this rule list, and on a
cached catalog `get_pypi_wheel_url` returns exactly its result over the
prefix-filtered candidate map. -/
theorem c2_selection_order :
    (∀ found tag, selectFrom found tag = amendedSelect found tag)
    ∧ (∀ (cache : Cache) (fetch : Str → FetchResult) (n v : Str) (t : Option Str)
        (files : List PFile),
        cacheLookup cache (pypiNormalize n) = some (some files) → files ≠ [] →
        getPypiWheelUrl cache fetch n v t
          = .ok (amendedSelect
              (buildFound files (pypiNormalize n ++ ['-'] ++ v ++ ['-'])) t, cache)) := by
  have hsel : ∀ found tag, selectFrom found tag = amendedSelect found tag := by
    intro found tag
    cases tag with
    | none => rfl
    | some t =>
      cases hx : lookupFound found t with
      | some f =>
        simp only [selectFrom, amendedSelect, hx]
        split <;> simp [List.findSome?]
      | none =>
        by_cases hlen : (splitOnCh '-' t).length < 3
        · simp [selectFrom, amendedSelect, hx, hlen, List.findSome?]
        · simp only [selectFrom, amendedSelect, hx, if_neg hlen]
          cases hm : List.find? (fun p =>
              startsWithS ((splitOnCh '-' t).headD [] ++ ['-']
                  ++ (List.drop 1 (splitOnCh '-' t)).headD [] ++ ['-']) p.1
                && containsSub "manylinux".data p.1 && containsSub "x86_64".data p.1) found with
          | some p => simp [List.findSome?]
          | none =>
            cases h3 : lookupFound found "py3-none-any".data with
            | some f => simp [List.findSome?]
            | none =>
              simp only [List.findSome?, id]
              cases lookupFound found "py2.py3-none-any".data <;> rfl
  refine ⟨hsel, ?_⟩
  intro cache fetch n v t files hc hne
  have hemp : files.isEmpty = false := by
    cases files with
    | nil => exact absurd rfl hne
    | cons a l => rfl
  simp [getPypiWheelUrl, hc, hemp, hsel]

/-- C2 (witness): `c2_selection_order` applied at the spec's concrete
fallback scenario — candidates `cp311-cp311-manylinux_x86_64` (A) and
`py3-none-any` (B), request `cp311-cp311-linux_x86_64` — yields A. -/
theorem c2_witness :
    getPypiWheelUrl
        [("pkg".data, some [⟨"pkg-1.0-cp311-cp311-manylinux_x86_64.whl".data, "uA".data⟩,
                            ⟨"pkg-1.0-py3-none-any.whl".data, "uB".data⟩])]
        (fun _ => FetchResult.httpError) "pkg".data "1.0".data
        (some "cp311-cp311-linux_x86_64".data)
      = .ok (some ⟨"pkg-1.0-cp311-cp311-manylinux_x86_64.whl".data, "uA".data⟩,
          [("pkg".data, some [⟨"pkg-1.0-cp311-cp311-manylinux_x86_64.whl".data, "uA".data⟩,
                              ⟨"pkg-1.0-py3-none-any.whl".data, "uB".data⟩])]) := by
  have h := c2_selection_order.2
      [("pkg".data, some [⟨"pkg-1.0-cp311-cp311-manylinux_x86_64.whl".data, "uA".data⟩,
                          ⟨"pkg-1.0-py3-none-any.whl".data, "uB".data⟩])]
      (fun _ => FetchResult.httpError) "pkg".data "1.0".data
      (some "cp311-cp311-linux_x86_64".data)
      [⟨"pkg-1.0-cp311-cp311-manylinux_x86_64.whl".data, "uA".data⟩,
       ⟨"pkg-1.0-py3-none-any.whl".data, "uB".data⟩]
      rfl (List.cons_ne_nil _ _)
  rw [h]
  rfl

/-- C3 (counterexample): a network failure that is not an `HTTPError`
(`urllib.error.URLError`, a reset connection, ...) is not caught by
`get_pypi_wheel_url`; the claim that any catalog lookup error yields a
NotFound result and that the function never raises fails on this input. -/
theorem c3_counterexample :
    getPypiWheelUrl [] (fun _ => FetchResult.netError) "pkg".data "1.0".data
      (some "py3-none-any".data) = .error "URLError" := rfl

/-- C3 (amended): `get_pypi_wheel_url` raises exactly when the name is not
cached and the catalog query fails with a non-HTTP network error; an
`HTTPError` response is caught, cached as a negative result, and reported as
NotFound, and every other outcome (including no matching filename) returns a
result rather than raising. -/
theorem c3_soft_failure :
    ∀ (cache : Cache) (fetch : Str → FetchResult) (n v : Str) (t : Option Str),
      ((∃ e, getPypiWheelUrl cache fetch n v t = .error e) ↔
        (cacheLookup cache (pypiNormalize n) = none
          ∧ fetch (simpleUrl (pypiNormalize n)) = .netError))
      ∧ (cacheLookup cache (pypiNormalize n) = none →
          fetch (simpleUrl (pypiNormalize n)) = .httpError →
          getPypiWheelUrl cache fetch n v t
            = .ok (none, assocUpdate cache (pypiNormalize n) none)) := by
  intro cache fetch n v t
  constructor
  · cases hc : cacheLookup cache (pypiNormalize n) with
    | some o =>
      cases o with
      | none => simp [getPypiWheelUrl, hc]
      | some files =>
        simp only [getPypiWheelUrl, hc]
        split <;> simp [hc]
    | none =>
      cases hf : fetch (simpleUrl (pypiNormalize n)) with
      | ok files => simp [getPypiWheelUrl, hc, hf]
      | httpError => simp [getPypiWheelUrl, hc, hf]
      | netError => simp [getPypiWheelUrl, hc, hf]
  · intro h1 h2
    simp [getPypiWheelUrl, h1, h2]

/-- C3 (witness): `c3_soft_failure` applied at an uncached name whose catalog
query answers with an `HTTPError`: the result is NotFound plus a negative
cache entry, not an exception. -/
theorem c3_witness :
    getPypiWheelUrl [] (fun _ => FetchResult.httpError) "pkg".data "1.0".data none
      = .ok (none, assocUpdate [] (pypiNormalize "pkg".data) none) :=
  (c3_soft_failure [] (fun _ => FetchResult.httpError) "pkg".data "1.0".data none).2 rfl rfl

/-- Helper: a list none of whose elements satisfy `p` filters to the empty
list. -/
theorem filter_eq_nil_of_any_false {α : Type} (p : α → Bool) (l : List α)
    (h : l.any p = false) : l.filter p = [] := by
  induction l with
  | nil => rfl
  | cons a l ih =>
    simp only [List.any_cons, Bool.or_eq_false_iff] at h
    simp [List.filter_cons, h.1, ih h.2]

/-- C5: every discrepancy `compare` returns — of any of the four kinds — has
a path whose first `/`-separated segment does not end in `.dist-info`; the
final filter drops everything under the wheel's metadata directory. -/
theorem c5_metadata_filter :
    ∀ (files : List FileEntry) (wheel : Wheel) (ord : List Str → List Str) (mode nm : Str),
      (mode, nm) ∈ compare files wheel ord →
      endsWithS ".dist-info".data (firstSeg nm) = false := by
  intro files wheel ord mode nm hmem
  simp only [compare, List.mem_filter] at hmem
  simpa using hmem.2

/-- C5 (witness): `c5_metadata_filter` applied to a concrete run that reports
an `outside` discrepancy for the path `x`. -/
theorem c5_witness :
    ("outside".data, "x".data) ∈ compare [⟨"x".data, []⟩] [] id
    ∧ endsWithS ".dist-info".data (firstSeg "x".data) = false :=
  ⟨by decide, c5_metadata_filter [⟨"x".data, []⟩] [] id "outside".data "x".data (by decide)⟩

/-- C6: `compare` is deterministic. The embedding is a pure function of the
source entries (name and bytes), the wheel file list, and the set-iteration
order `ord` CPython uses for the leftover-file set (fixed within a process):
two runs agreeing on that order over the leftover set return identical
discrepancy lists, element for element. -/
theorem c6_deterministic :
    ∀ (files : List FileEntry) (wheel : Wheel) (ord₁ ord₂ : List Str → List Str),
      ord₁ (notFoundList files wheel) = ord₂ (notFoundList files wheel) →
      compare files wheel ord₁ = compare files wheel ord₂ := by
  intro files wheel ord₁ ord₂ h
  simp only [compare, compareErrors, h]

/-- C6 (witness): `c6_deterministic` at a concrete input with a nonempty
leftover set, for two syntactically different orderings. -/
theorem c6_witness :
    compare [⟨"x".data, []⟩] [⟨"extra.txt".data, false, []⟩] (fun l => l)
      = compare [⟨"x".data, []⟩] [⟨"extra.txt".data, false, []⟩] id :=
  c6_deterministic [⟨"x".data, []⟩] [⟨"extra.txt".data, false, []⟩] (fun l => l) id rfl

/-- Helper: the state and outcome of a fresh `add_wheel` insert. -/
theorem addWheel_added (sha : Str → Str) (st : IndexState) (fname c : Str)
    (h : (st.db.getD []).any (fun r => r.name == pyPartitionBefore "-".data fname
        && r.version == pyPartitionAfter "-".data fname) = false) :
    addWheel sha st fname (some c)
      = .ok (⟨assocUpdate st.files ("files/".data ++ fname) c,
          some ((st.db.getD []) ++
            [{ name := pyPartitionBefore "-".data fname,
               version := pyPartitionAfter "-".data fname,
               path := "files/".data ++ fname, sha256 := sha c }]),
          updateIndex ((st.db.getD []) ++
            [{ name := pyPartitionBefore "-".data fname,
               version := pyPartitionAfter "-".data fname,
               path := "files/".data ++ fname, sha256 := sha c }])⟩, .added) := by
  have hne : ¬ ((st.db.getD []).any (fun r => r.name == pyPartitionBefore "-".data fname
      && r.version == pyPartitionAfter "-".data fname) = true) := by
    simp [h]
  simp only [addWheel]
  rw [if_neg hne]

/-- Helper: the state and outcome of an `add_wheel` call hitting the
uniqueness constraint. -/
theorem addWheel_dup (sha : Str → Str) (st : IndexState) (fname c : Str)
    (h : (st.db.getD []).any (fun r => r.name == pyPartitionBefore "-".data fname
        && r.version == pyPartitionAfter "-".data fname) = true) :
    addWheel sha st fname (some c)
      = .ok (⟨assocUpdate st.files ("files/".data ++ fname) c,
          some (st.db.getD []),
          updateIndex (st.db.getD [])⟩, .duplicateKey) := by
  simp only [addWheel]
  rw [if_pos h]

/-- C7: inserting a wheel whose `(name, version)` key is new succeeds; a
second `add_wheel` with the same filename is reported as `duplicateKey` (a
normal return, distinct from the `FileNotFoundError` exception used for I/O
failure), leaves the table unchanged, and exactly one record with that key is
stored, its fields those of the first insertion. -/
theorem c7_duplicate_key :
    ∀ (sha : Str → Str) (st : IndexState) (fname c₁ c₂ : Str),
      (st.db.getD []).any (fun r => r.name == pyPartitionBefore "-".data fname
          && r.version == pyPartitionAfter "-".data fname) = false →
      ∃ st₁ st₂ : IndexState,
        addWheel sha st fname (some c₁) = .ok (st₁, .added)
        ∧ addWheel sha st₁ fname (some c₂) = .ok (st₂, .duplicateKey)
        ∧ st₂.db = st₁.db
        ∧ st₁.db = some ((st.db.getD []) ++
            [{ name := pyPartitionBefore "-".data fname,
               version := pyPartitionAfter "-".data fname,
               path := "files/".data ++ fname, sha256 := sha c₁ }])
        ∧ ((st₁.db.getD []).filter (fun r => r.name == pyPartitionBefore "-".data fname
              && r.version == pyPartitionAfter "-".data fname)).length = 1 := by
  intro sha st fname c₁ c₂ h
  have hfil : (st.db.getD []).filter (fun r => r.name == pyPartitionBefore "-".data fname
      && r.version == pyPartitionAfter "-".data fname) = [] :=
    filter_eq_nil_of_any_false _ _ h
  refine ⟨_, _, addWheel_added sha st fname c₁ h,
    addWheel_dup sha _ fname c₂ (by simp [h]), by simp, rfl, ?_⟩
  simp [List.filter_append, hfil]

/-- C7 (witness): `c7_duplicate_key` at an empty initial store with the
wheel `foo-1.0-py3-none-any.whl` added twice (second time with different
bytes). -/
theorem c7_witness :
    ∃ st₁ st₂ : IndexState,
      addWheel (fun _ => "h".data) ⟨[], none, updateIndex []⟩
          "foo-1.0-py3-none-any.whl".data (some "AA".data) = .ok (st₁, .added)
      ∧ addWheel (fun _ => "h".data) st₁
          "foo-1.0-py3-none-any.whl".data (some "BB".data) = .ok (st₂, .duplicateKey)
      ∧ st₂.db = st₁.db
      ∧ st₁.db = some ((((⟨[], none, updateIndex []⟩ : IndexState)).db.getD []) ++
          [{ name := pyPartitionBefore "-".data "foo-1.0-py3-none-any.whl".data,
             version := pyPartitionAfter "-".data "foo-1.0-py3-none-any.whl".data,
             path := "files/".data ++ "foo-1.0-py3-none-any.whl".data,
             sha256 := (fun (_ : Str) => "h".data) "AA".data }])
      ∧ ((st₁.db.getD []).filter
          (fun r => r.name == pyPartitionBefore "-".data "foo-1.0-py3-none-any.whl".data
            && r.version == pyPartitionAfter "-".data "foo-1.0-py3-none-any.whl".data)).length
          = 1 :=
  c7_duplicate_key (fun _ => "h".data) ⟨[], none, updateIndex []⟩
    "foo-1.0-py3-none-any.whl".data "AA".data "BB".data rfl

/-- C10: `add_wheel` keys the stored record by splitting the wheel filename
at its first `-` only: the recorded name is the part before the first dash
and the recorded version is the entire remainder — including tag segments and
the `.whl` extension. For `foo-1.0-py3-none-any.whl` the stored version is
`1.0-py3-none-any.whl`, not `1.0`. -/
theorem c10_filename_key :
    (∀ (sha : Str → Str) (st : IndexState) (fname c : Str),
      (st.db.getD []).any (fun r => r.name == pyPartitionBefore "-".data fname
          && r.version == pyPartitionAfter "-".data fname) = false →
      addWheel sha st fname (some c)
        = .ok (⟨assocUpdate st.files ("files/".data ++ fname) c,
            some ((st.db.getD []) ++
              [{ name := pyPartitionBefore "-".data fname,
                 version := pyPartitionAfter "-".data fname,
                 path := "files/".data ++ fname, sha256 := sha c }]),
            updateIndex ((st.db.getD []) ++
              [{ name := pyPartitionBefore "-".data fname,
                 version := pyPartitionAfter "-".data fname,
                 path := "files/".data ++ fname, sha256 := sha c }])⟩, .added))
    ∧ pyPartitionBefore "-".data "foo-1.0-py3-none-any.whl".data = "foo".data
    ∧ pyPartitionAfter "-".data "foo-1.0-py3-none-any.whl".data = "1.0-py3-none-any.whl".data
    ∧ pyPartitionAfter "-".data "foo-1.0-py3-none-any.whl".data ≠ "1.0".data := by
  refine ⟨?_, rfl, rfl, by decide⟩
  exact fun sha st fname c h => addWheel_added sha st fname c h

/-- C10 (witness): `c10_filename_key` applied at an empty store and the
filename `foo-1.0-py3-none-any.whl`. -/
theorem c10_witness :
    addWheel (fun _ => "h".data) ⟨[], none, updateIndex []⟩
        "foo-1.0-py3-none-any.whl".data (some "AA".data)
      = .ok (⟨assocUpdate [] ("files/".data ++ "foo-1.0-py3-none-any.whl".data) "AA".data,
          some ([] ++
            [{ name := pyPartitionBefore "-".data "foo-1.0-py3-none-any.whl".data,
               version := pyPartitionAfter "-".data "foo-1.0-py3-none-any.whl".data,
               path := "files/".data ++ "foo-1.0-py3-none-any.whl".data,
               sha256 := (fun (_ : Str) => "h".data) "AA".data }]),
          updateIndex ([] ++
            [{ name := pyPartitionBefore "-".data "foo-1.0-py3-none-any.whl".data,
               version := pyPartitionAfter "-".data "foo-1.0-py3-none-any.whl".data,
               path := "files/".data ++ "foo-1.0-py3-none-any.whl".data,
               sha256 := (fun (_ : Str) => "h".data) "AA".data }])⟩, .added) :=
  c10_filename_key.1 (fun _ => "h".data) ⟨[], none, updateIndex []⟩
    "foo-1.0-py3-none-any.whl".data "AA".data rfl

/-- Helper: `any` over mapped-out first components. -/
theorem any_map_fst {α β : Type} (l : List (α × β)) (p : α → Bool) :
    (l.map Prod.fst).any p = l.any (fun x => p x.1) := by
  induction l with
  | nil => rfl
  | cons a l ih => simp [List.any_cons, ih]

/-- Helper: folding the `defaultdict` grouping step over rows yields, at the
level of keys, exactly the first-occurrence deduplication fold. -/
theorem groupByName_keys_aux (rows : List (Str × Str × Str))
    (acc : List (Str × List (Str × Str))) :
    (rows.foldl (fun a row =>
        if a.any (fun p => p.1 == row.1) then
          a.map (fun p => if p.1 == row.1 then (p.1, p.2 ++ [row.2]) else p)
        else a ++ [(row.1, [row.2])]) acc).map Prod.fst
      = (rows.map Prod.fst).foldl
          (fun a x => if a.any (fun y => y == x) then a else a ++ [x])
          (acc.map Prod.fst) := by
  induction rows generalizing acc with
  | nil => rfl
  | cons r rows ih =>
    simp only [List.foldl_cons, List.map_cons]
    rw [ih]
    have hmapany : (acc.map Prod.fst).any (fun y => y == r.1)
        = acc.any (fun p => p.1 == r.1) :=
      any_map_fst acc _
    have hstep : ((if acc.any (fun p => p.1 == r.1) then
          acc.map (fun p => if p.1 == r.1 then (p.1, p.2 ++ [r.2]) else p)
        else acc ++ [(r.1, [r.2])]).map Prod.fst)
        = (if (acc.map Prod.fst).any (fun y => y == r.1) then acc.map Prod.fst
           else acc.map Prod.fst ++ [r.1]) := by
      rw [hmapany]
      by_cases hany : acc.any (fun p => p.1 == r.1) = true
      · rw [if_pos hany, if_pos hany, List.map_map]
        apply List.map_congr_left
        intro p _
        by_cases hp : p.1 = r.1
        · simp [hp]
        · simp [hp]
      · rw [if_neg hany, if_neg hany]
        simp
    rw [hstep]

/-- Helper: the keys of `groupByName` are the distinct raw names of the rows
in first-occurrence order. -/
theorem groupByName_keys (rows : List (Str × Str × Str)) :
    (groupByName rows).map Prod.fst = dedupFirst (rows.map Prod.fst) :=
  groupByName_keys_aux rows []

/-- C8 (counterexample): two stored records with raw names `Foo_Bar` and
`foo-bar` — which normalize identically — yield TWO main-index entries
(identical text), not one merged entry, and two project pages written to the
same `foo-bar/` directory (so the later overwrites the earlier on disk);
moreover the main listing follows insertion order (`zzz` before `aaa`), not
name order. -/
theorem c8_counterexample :
    (updateIndex [⟨"Foo_Bar".data, "1".data, "files/a.whl".data, "h1".data⟩,
                  ⟨"foo-bar".data, "2".data, "files/b.whl".data, "h2".data⟩]).mainItems
      = [htmlItem "foo-bar/index.html".data "foo-bar".data,
         htmlItem "foo-bar/index.html".data "foo-bar".data]
    ∧ (updateIndex [⟨"Foo_Bar".data, "1".data, "files/a.whl".data, "h1".data⟩,
                    ⟨"foo-bar".data, "2".data, "files/b.whl".data, "h2".data⟩]).projectPages.map
        Prod.fst
      = ["foo-bar".data, "foo-bar".data]
    ∧ (updateIndex [⟨"zzz".data, "1".data, "files/z.whl".data, "h".data⟩,
                    ⟨"aaa".data, "1".data, "files/a.whl".data, "h".data⟩]).mainItems
      = [htmlItem "zzz/index.html".data "zzz".data,
         htmlItem "aaa/index.html".data "aaa".data] :=
  ⟨rfl, rfl, rfl⟩

/-- C8 (amended): `update_index` is a deterministic pure function of the
stored record sequence; its top-level listing has one entry per distinct RAW
name, in first-insertion order (not sorted), each rendered through
`normalize` — so raw names that normalize identically produce one entry each
(duplicated text) rather than a single merged entry — and the project pages
are emitted per raw name under the normalized directory name, in the same
order. -/
theorem c8_listing :
    ∀ db : List DbRecord,
      (updateIndex db).mainItems
        = (dedupFirst (db.map DbRecord.name)).map
            (fun n => htmlItem (normalize n ++ "/index.html".data) (normalize n))
      ∧ (updateIndex db).projectPages.map Prod.fst
        = (dedupFirst (db.map DbRecord.name)).map normalize := by
  intro db
  have hk : (groupByName (db.map (fun r => (r.name, r.path, r.sha256)))).map Prod.fst
      = dedupFirst (db.map DbRecord.name) := by
    rw [groupByName_keys, List.map_map]
    rfl
  constructor
  · simp only [updateIndex]
    rw [← hk, List.map_map]
    rfl
  · simp only [updateIndex]
    rw [List.map_map, ← hk, List.map_map]
    rfl

/-- C9 (counterexample): the `ValueError("pkg not found")` raised for a
`.conda` container with no `pkg-` member is not caught at any per-artifact
boundary: a batch whose first package is such a container aborts with the
error, never processing the second package — processing the second package
alone succeeds normally. The failure is therefore fatal for the whole batch,
not for that single artifact only. -/
theorem c9_counterexample :
    mainLoop (fun _ => FetchResult.httpError) (fun _ => DownloadResult.httpError) id
        ⟨[], [], [], []⟩
        [⟨"bad.conda".data, .condaZip [⟨"info.json".data, []⟩]⟩,
         ⟨"good.tar.bz2".data, .tarArchive []⟩]
      = .error "pkg not found"
    ∧ mainLoop (fun _ => FetchResult.httpError) (fun _ => DownloadResult.httpError) id
        ⟨[], [], [], []⟩
        [⟨"good.tar.bz2".data, .tarArchive []⟩]
      = .ok (⟨[], ["good.tar.bz2: wheel name not found".data], [], []⟩, []) :=
  ⟨rfl, rfl⟩

/-- C9 (amended): a `.conda` container with no member prefixed `pkg-` makes
`iter_files` raise (`ValueError("pkg not found")`, the error the spec calls
`ArchiveFormatError`); the exception propagates uncaught through
`download_and_compare` and `main`'s package loop, so it aborts the whole
batch rather than only that artifact's processing. -/
theorem c9_archive_error :
    (∀ (members : List CondaMember) (nm : Str),
      endsWithS ".conda".data nm = true →
      members.find? (fun m => startsWithS "pkg-".data m.filename) = none →
      iterFiles ⟨nm, .condaZip members⟩ = .error "pkg not found")
    ∧ mainLoop (fun _ => FetchResult.httpError) (fun _ => DownloadResult.httpError) id
        ⟨[], [], [], []⟩
        [⟨"bad.conda".data, .condaZip [⟨"info.json".data, []⟩]⟩,
         ⟨"good.tar.bz2".data, .tarArchive []⟩]
      = .error "pkg not found" := by
  refine ⟨?_, rfl⟩
  intro members nm h1 h2
  simp [iterFiles, h1, h2]

/-- C9 (witness): `c9_archive_error` applied to a concrete `.conda` container
whose only member lacks the `pkg-` prefix. -/
theorem c9_witness :
    iterFiles ⟨"x.conda".data, .condaZip [⟨"a.txt".data, []⟩]⟩ = .error "pkg not found" :=
  c9_archive_error.1 [⟨"a.txt".data, []⟩] "x.conda".data rfl rfl

/-- Helper: the effect of `re.sub(rb"^#!.*/", b"#!", _)` on a shebang whose
first line is a path (no newline inside it) followed by a `/` and then a
tail with no further slash on that line: the whole path prefix up to that
final slash is stripped. -/
theorem stripShebangL_path (p t : Str)
    (hp : '\n' ∉ p)
    (ht : '/' ∉ t.takeWhile (fun c => c != '\n')) :
    stripShebangL ('#' :: '!' :: (p ++ '/' :: t)) = '#' :: '!' :: t := by
  have hq : ∀ c ∈ p, (c != '\n') = true := by
    intro c hc
    rw [bne_iff_ne]
    intro hcc
    exact hp (hcc ▸ hc)
  have htk : ∀ c ∈ (t.takeWhile (fun c => c != '\n')).reverse, (c != '/') = true := by
    intro c hc
    rw [List.mem_reverse] at hc
    rw [bne_iff_ne]
    intro hcc
    exact ht (hcc ▸ hc)
  have hfl : (p ++ '/' :: t).takeWhile (fun c => c != '\n')
      = p ++ '/' :: t.takeWhile (fun c => c != '\n') := by
    rw [List.takeWhile_append_of_pos hq]
    rfl
  have hrev : (p ++ '/' :: t.takeWhile (fun c => c != '\n')).reverse
      = (t.takeWhile (fun c => c != '\n')).reverse ++ '/' :: p.reverse := by
    simp
  have hafter : ((p ++ '/' :: t.takeWhile (fun c => c != '\n')).reverse.takeWhile
      (fun c => c != '/')).reverse = t.takeWhile (fun c => c != '\n') := by
    rw [hrev, List.takeWhile_append_of_pos htk]
    simp [List.takeWhile_cons]
  have hsplit : p ++ '/' :: t
      = (p ++ '/' :: t.takeWhile (fun c => c != '\n'))
        ++ t.dropWhile (fun c => c != '\n') := by
    rw [List.append_assoc, List.cons_append, List.takeWhile_append_dropWhile]
  have hdrop : (p ++ '/' :: t).drop
      (p ++ '/' :: t.takeWhile (fun c => c != '\n')).length
      = t.dropWhile (fun c => c != '\n') := by
    conv_lhs => rw [hsplit]
    exact List.drop_left _ _
  have hcont : (p ++ '/' :: t.takeWhile (fun c => c != '\n')).contains '/' = true :=
    List.elem_eq_true_of_mem (by simp)
  have hunfold : stripShebangL ('#' :: '!' :: (p ++ '/' :: t))
      = (if ((p ++ '/' :: t).takeWhile (fun c => c != '\n')).contains '/' = true then
          ['#', '!'] ++ (((p ++ '/' :: t).takeWhile (fun c => c != '\n')).reverse.takeWhile
              (fun c => c != '/')).reverse
            ++ (p ++ '/' :: t).drop ((p ++ '/' :: t).takeWhile (fun c => c != '\n')).length
        else '#' :: '!' :: (p ++ '/' :: t)) := rfl
  rw [hunfold, hfl, if_pos hcont, hafter, hdrop, List.append_assoc,
    List.takeWhile_append_dropWhile]
  rfl

/-- Helper: the value of `compare` on the one-file data-directory scenario —
source file `f`, wheel data file `pkg-1.0.data/data/f` — is empty exactly
when the shebang-stripped contents agree, and a single `differ` entry
otherwise. -/
theorem compare_shebang_scenario (c₁ c₂ : Str) (ord : List Str → List Str)
    (hord : ord [] = []) :
    compare [⟨"f".data, c₁⟩] [⟨"pkg-1.0.data/data/f".data, false, c₂⟩] ord
      = if stripShebangL c₁ = stripShebangL c₂ then []
        else [("differ".data, "pkg-1.0.data/data/f".data)] := by
  have hunf : compare [⟨"f".data, c₁⟩] [⟨"pkg-1.0.data/data/f".data, false, c₂⟩] ord
      = ((if stripShebangL c₁ = stripShebangL c₂ then ([] : List (Str × Str))
          else [("differ".data, "pkg-1.0.data/data/f".data)])
        ++ (((ord []).filter (fun f => !endsWithS "/.git".data f)).map
          (fun f => (("additional".data : Str), f)))).filter
        (fun pr => !endsWithS ".dist-info".data (firstSeg pr.2)) := rfl
  rw [hunf, hord]
  by_cases hc : stripShebangL c₁ = stripShebangL c₂
  · rw [if_pos hc]
    rfl
  · rw [if_neg hc]
    rfl

/-- C4: under the data-directory placement rule, two files identical except
for the interpreter-path prefix of a leading shebang line (the first line's
content up to its final `/`) compare equal — no discrepancy is recorded —
while two such files whose first lines differ after that final slash (for
example only in trailing arguments) are recorded as `differ`; only the path
prefix up to the final `/` of the first line is stripped from both sides
before the byte comparison. -/
theorem c4_shebang_normalization :
    ∀ (p₁ p₂ t t₂ : Str) (ord : List Str → List Str),
      '\n' ∉ p₁ → '\n' ∉ p₂ →
      '/' ∉ t.takeWhile (fun c => c != '\n') →
      '/' ∉ t₂.takeWhile (fun c => c != '\n') →
      ord [] = [] →
      (compare [⟨"f".data, '#' :: '!' :: (p₁ ++ '/' :: t)⟩]
          [⟨"pkg-1.0.data/data/f".data, false, '#' :: '!' :: (p₂ ++ '/' :: t)⟩] ord = []
      ∧ (t ≠ t₂ →
          compare [⟨"f".data, '#' :: '!' :: (p₁ ++ '/' :: t)⟩]
            [⟨"pkg-1.0.data/data/f".data, false, '#' :: '!' :: (p₂ ++ '/' :: t₂)⟩] ord
          = [("differ".data, "pkg-1.0.data/data/f".data)])) := by
  intro p₁ p₂ t t₂ ord hp₁ hp₂ ht ht₂ hord
  constructor
  · rw [compare_shebang_scenario _ _ ord hord,
      stripShebangL_path p₁ t hp₁ ht, stripShebangL_path p₂ t hp₂ ht, if_pos rfl]
  · intro hne
    have hcc : ('#' :: '!' :: t : Str) ≠ '#' :: '!' :: t₂ := by
      intro h
      apply hne
      injection h with h1 h2
      injection h2
    rw [compare_shebang_scenario _ _ ord hord,
      stripShebangL_path p₁ t hp₁ ht, stripShebangL_path p₂ t₂ hp₂ ht₂, if_neg hcc]

/-- C4 (witness): `c4_shebang_normalization` at the spec's concrete examples:
`#!/usr/bin/python3` versus `#!/opt/conda/bin/python3` compare equal, while
`#!/usr/bin/env python3 -O` versus `#!/usr/bin/env python3 -X` (differing
only in trailing arguments after the interpreter name) differ. -/
theorem c4_witness :
    compare [⟨"f".data, "#!/usr/bin/python3".data⟩]
        [⟨"pkg-1.0.data/data/f".data, false, "#!/opt/conda/bin/python3".data⟩] id = []
    ∧ compare [⟨"f".data, "#!/usr/bin/env python3 -O".data⟩]
        [⟨"pkg-1.0.data/data/f".data, false, "#!/usr/bin/env python3 -X".data⟩] id
      = [("differ".data, "pkg-1.0.data/data/f".data)] := by
  constructor
  · exact (c4_shebang_normalization "/usr/bin".data "/opt/conda/bin".data
      "python3".data "python3".data id (by decide) (by decide) (by decide) (by decide) rfl).1
  · exact (c4_shebang_normalization "/usr/bin".data "/usr/bin".data
      "env python3 -O".data "env python3 -X".data id (by decide) (by decide) (by decide)
      (by decide) rfl).2 (by decide)

end Cowhepaco
